import Mathlib

/-!
Shallow embedding of `dts_unpacker.py` (bengris32/DTS_unpacker).

The opened image file is modelled as a `List Nat` of byte values together
with explicit positions; `f.seek(p); f.read(n)` becomes list `drop`/`take`.
Python exceptions are modelled by `Option` (`none` = the operation raised),
and the unbounded `while True` loop of `find_hsdt_magic` is modelled with
explicit fuel: `none` means the loop did not return within that many
iterations.
-/

set_option autoImplicit false

namespace DTS

/-- `HSDT_MAGIC = b"HSDT"` (line 25). -/
def HSDT_MAGIC : List Nat := [72, 83, 68, 84]

/-- `GZIP_MAGIC = b"\x1f\x8b"` (line 26). -/
def GZIP_MAGIC : List Nat := [31, 139]

/-- `LOWEST_PAGE_SIZE = 2048` (line 27). -/
def LOWEST_PAGE_SIZE : Nat := 2048

/-- Python `bytes.find` helper: try to match `pat` at index `i` of `hay`,
otherwise recurse on the tail. Returns the first match index, `-1` if none. -/
def bytesFindAux (pat : List Nat) : List Nat → Nat → Int
  | hay, i =>
    if hay.take pat.length == pat then (i : Int)
    else
      match hay with
      | [] => -1
      | _ :: t => bytesFindAux pat t (i + 1)

/-- Python `hay.find(pat)`: first index where `pat` occurs, `-1` otherwise. -/
def bytesFind (hay pat : List Nat) : Int :=
  bytesFindAux pat hay 0

/-- `buffer.find(HSDT_MAGIC) != -1` (line 106): the block contains the magic. -/
def hasMagic (buffer : List Nat) : Bool :=
  bytesFind buffer HSDT_MAGIC != -1

/-- The `k`-th 2048-byte block of the stream: the bytes returned by the
`k`-th `f.read(LOWEST_PAGE_SIZE)` of `find_hsdt_magic` (line 103). At end of
data the read returns fewer (possibly zero) bytes, which `take` models. -/
def blockAt (data : List Nat) (k : Nat) : List Nat :=
  (data.drop (LOWEST_PAGE_SIZE * k)).take LOWEST_PAGE_SIZE

/-- The `while True` loop of `find_hsdt_magic` (lines 101-110), with fuel.
At the iteration examining block `k`, the variable `last_pos` holds
`LOWEST_PAGE_SIZE * k` (it is updated to `current_pos` only after a failed
check, and `current_pos` is incremented before the check). -/
def findLoop (data : List Nat) : Nat → Nat → Option Nat
  | 0, _ => none
  | fuel + 1, k =>
    if hasMagic (blockAt data k) then some (LOWEST_PAGE_SIZE * k)
    else findLoop data fuel (k + 1)

/-- `find_hsdt_magic(f)` (lines 97-110), the file freshly positioned at 0. -/
def find_hsdt_magic (fuel : Nat) (data : List Nat) : Option Nat :=
  findLoop data fuel 0

/-! ## ctypes struct layout

`dt_head_info` and `dt_entry_t` are `ctypes.Structure` subclasses; their
byte layout follows the native (x86-64 System V) rules: each field is
placed at the next offset aligned to its type's alignment, and the struct
size is the end offset rounded up to the largest field alignment. -/

/-- Size and alignment of one ctypes field. -/
structure CField where
  size : Nat
  align : Nat

/-- Round `n` up to the next multiple of `a`. -/
def alignUp (n a : Nat) : Nat := ((n + a - 1) / a) * a

/-- Walk the fields accumulating the running end offset and max alignment. -/
def layoutAux : List CField → Nat → Nat → Nat × Nat
  | [], off, amax => (off, amax)
  | f :: fs, off, amax => layoutAux fs (alignUp off f.align + f.size) (max amax f.align)

/-- `ctypes.sizeof` of a structure with the given fields. -/
def layoutSize (fields : List CField) : Nat :=
  let p := layoutAux fields 0 1
  alignUp p.1 p.2

/-- Offsets of each field in declaration order. -/
def layoutOffsetsAux : List CField → Nat → List Nat
  | [], _ => []
  | f :: fs, off => alignUp off f.align :: layoutOffsetsAux fs (alignUp off f.align + f.size)

/-- Offsets of each field of a structure, in declaration order. -/
def layoutOffsets (fields : List CField) : List Nat :=
  layoutOffsetsAux fields 0

/-- Fields of `dt_head_info` (lines 31-32):
`c_char * 4` (size 4, align 1), `c_int`, `c_int` (size 4, align 4). -/
def dt_head_fields : List CField := [⟨4, 1⟩, ⟨4, 4⟩, ⟨4, 4⟩]

/-- Fields of `dt_entry_t` (lines 35-45): `c_ubyte * 4`, `c_ubyte * 4`
(size 4, align 1), four `c_int` (size 4, align 4), two `c_ulonglong`
(size 8, align 8). -/
def dt_entry_fields : List CField :=
  [⟨4, 1⟩, ⟨4, 1⟩, ⟨4, 4⟩, ⟨4, 4⟩, ⟨4, 4⟩, ⟨4, 4⟩, ⟨8, 8⟩, ⟨8, 8⟩]

/-- `sizeof(dt_head_info)` (line 116). -/
def dt_head_size : Nat := layoutSize dt_head_fields

/-- `sizeof(dt_entry_t)` (line 120). -/
def dt_entry_size : Nat := layoutSize dt_entry_fields

/-! ## Field decoding (little-endian, from `from_buffer_copy`) -/

/-- Byte `i` of a buffer (all uses are guarded by a length check). -/
def byteAt (b : List Nat) (i : Nat) : Nat := b.getD i 0

/-- Unsigned 32-bit little-endian value at offset `i`. -/
def ule32at (b : List Nat) (i : Nat) : Nat :=
  byteAt b i + 256 * byteAt b (i + 1) + 65536 * byteAt b (i + 2) +
    16777216 * byteAt b (i + 3)

/-- `c_int`: signed 32-bit little-endian value at offset `i`. -/
def sle32at (b : List Nat) (i : Nat) : Int :=
  let u := ule32at b i
  if u < 2147483648 then (u : Int) else (u : Int) - 4294967296

/-- `c_ulonglong`: unsigned 64-bit little-endian value at offset `i`. -/
def ule64at (b : List Nat) (i : Nat) : Nat :=
  ule32at b i + 4294967296 * ule32at b (i + 4)

/-- `dt_head_info` (lines 31-32): `magic`, `version`, `dt_count`. -/
structure dt_head_info where
  magic : List Nat
  version : Int
  dt_count : Int
deriving Repr, DecidableEq

/-- `dt_entry_t` (lines 35-45). -/
structure dt_entry_t where
  board_id : List Nat
  reserved : List Nat
  dtb_size : Int
  vrl_size : Int
  dtb_offset : Int
  vrl_offset : Int
  dtb_file : Nat
  vrl_file : Nat
deriving Repr, DecidableEq

/-- `dt_head_info.from_buffer_copy(b)` (line 117): raises `ValueError`
(here `none`) when the buffer holds fewer than `sizeof(dt_head_info)`
bytes, otherwise decodes the fields at their layout offsets 0, 4, 8. -/
def headFromBuffer (b : List Nat) : Option dt_head_info :=
  if b.length < dt_head_size then none
  else some ⟨b.take 4, sle32at b 4, sle32at b 8⟩

/-- `dt_entry_t.from_buffer_copy(b)` (line 120): raises (here `none`) when
the buffer holds fewer than `sizeof(dt_entry_t)` bytes, otherwise decodes
the fields at their layout offsets 0, 4, 8, 12, 16, 20, 24, 32. -/
def entryFromBuffer (b : List Nat) : Option dt_entry_t :=
  if b.length < dt_entry_size then none
  else some ⟨b.take 4, (b.drop 4).take 4, sle32at b 8, sle32at b 12,
    sle32at b 16, sle32at b 20, ule64at b 24, ule64at b 32⟩

/-! ## DTEntry and payload resolution -/

/-- `self._dt[:2] == GZIP_MAGIC` (line 69). -/
def is_compressed (b : List Nat) : Bool :=
  b.take 2 == GZIP_MAGIC

/-- The `DTEntry` object after `__init__` and `read_image` (lines 48-69). -/
structure DTEntry where
  board_id : List Nat
  dtb_size : Int
  dtb_offset : Int
  vrl_size : Int
  vrl_offset : Int
  compressed : Bool
  _dt : List Nat
  vrl : List Nat
deriving Repr, DecidableEq

/-- Bytes produced by `f.read(size)` for the sizes at which the read does
not raise: `size = -1` reads to end of data, a non-negative `size` returns
at most `size` bytes (fewer when the data ends early — a short read does
not raise). `BufferedReader.read` raises `ValueError` for sizes below `-1`;
`seekRead` models that raise, so this function is only applied to sizes
`≥ -1`. -/
def pyRead (data : List Nat) (pos : Nat) (size : Int) : List Nat :=
  if size = -1 then data.drop pos else (data.drop pos).take size.toNat

/-- `f.seek(pos)` then `f.read(size)`: `seek` raises (here `none`) on a
negative position, and `read` raises `ValueError` (here `none`) when
`size` is below `-1` — only `-1` means read-to-EOF. -/
def seekRead (data : List Nat) (pos size : Int) : Option (List Nat) :=
  if pos < 0 then none
  else if size < -1 then none
  else some (pyRead data pos.toNat size)

/-- `DTEntry.read_image(start, f)` (lines 62-69) together with `__init__`
(lines 49-60): seek to `start + dtb_offset`, read `dtb_size` bytes; seek to
`start + vrl_offset`, read `vrl_size` bytes; classify compression from the
first two DTB bytes. -/
def read_image (start : Int) (data : List Nat) (e : dt_entry_t) : Option DTEntry :=
  match seekRead data (start + e.dtb_offset) e.dtb_size with
  | none => none
  | some d =>
    match seekRead data (start + e.vrl_offset) e.vrl_size with
    | none => none
    | some v =>
      some { board_id := e.board_id, dtb_size := e.dtb_size,
             dtb_offset := e.dtb_offset, vrl_size := e.vrl_size,
             vrl_offset := e.vrl_offset, compressed := is_compressed d,
             _dt := d, vrl := v }

/-- `extract_dt(start, f, dt_entry)` (lines 90-94). -/
def extract_dt (start : Int) (data : List Nat) (e : dt_entry_t) : Option DTEntry :=
  read_image start data e

/-- The `DTEntry.dt` property (lines 71-76), modelled as an access that
returns the value together with the (unchanged) object; the decompressor
`gz` stands for `gzip.decompress`, an external library function. -/
def dt_access (gz : List Nat → List Nat) (e : DTEntry) : List Nat × DTEntry :=
  if e.compressed then (gz e._dt, e) else (e._dt, e)

/-- The `DTEntry.dt` property again, instrumented: the boolean records
whether `gzip_decompress` was invoked by this access. -/
def dt_traced (gz : List Nat → List Nat) (e : DTEntry) : List Nat × Bool :=
  if e.compressed then (gz e._dt, true) else (e._dt, false)

/-- `if entry.vrl_offset:` (line 159): `main` writes the `.vrl` file only
when `vrl_offset` is truthy, i.e. nonzero. -/
def shouldWriteVrl (e : DTEntry) : Bool :=
  e.vrl_offset != 0

/-! ## Manifest record (`DTEntry.as_dict`, lines 78-87) -/

/-- A UTF-8 continuation byte, `0x80..0xBF`. -/
def isCont (b : Nat) : Bool :=
  128 ≤ b && b ≤ 191

/-- Strict UTF-8 validity, as enforced by Python `bytes.decode()` (UTF-8,
strict errors): 1-4 byte sequences, no overlong forms, no surrogates
(`ED A0..BF`), nothing above `U+10FFFF` (`F4` limited to `80..8F`). -/
def validUtf8 : List Nat → Bool
  | [] => true
  | b :: rest =>
    if b ≤ 127 then validUtf8 rest
    else if b < 194 then false
    else if b ≤ 223 then
      match rest with
      | c :: r => isCont c && validUtf8 r
      | [] => false
    else if b ≤ 239 then
      match rest with
      | c1 :: c2 :: r =>
        (if b = 224 then 160 ≤ c1 && c1 ≤ 191
         else if b = 237 then 128 ≤ c1 && c1 ≤ 159
         else isCont c1) && isCont c2 && validUtf8 r
      | _ => false
    else if b ≤ 244 then
      match rest with
      | c1 :: c2 :: c3 :: r =>
        (if b = 240 then 144 ≤ c1 && c1 ≤ 191
         else if b = 244 then 128 ≤ c1 && c1 ≤ 143
         else isCont c1) && isCont c2 && isCont c3 && validUtf8 r
      | _ => false
    else false

/-- The dictionary built by `DTEntry.as_dict` (lines 78-87). `board_id`
holds the bytes whose successful `.decode()` the guard in `as_dict`
witnesses. -/
structure ManifestRecord where
  board_id : List Nat
  dtb_size : Int
  dtb_offset : Int
  vrl_size : Int
  vrl_offset : Int
  compressed : Bool
deriving Repr, DecidableEq

/-- `DTEntry.as_dict` (lines 78-87): `bytes(self.board_id).decode()` raises
`UnicodeDecodeError` (here `none`) on invalid UTF-8, otherwise the manifest
record is built. -/
def as_dict (e : DTEntry) : Option ManifestRecord :=
  if validUtf8 e.board_id then
    some ⟨e.board_id, e.dtb_size, e.dtb_offset, e.vrl_size, e.vrl_offset,
      e.compressed⟩
  else none

/-! ## Entry table and the full parse (`read_dtb`, lines 112-126) -/

/-- The list comprehension of lines 119-122: read `n` consecutive
`sizeof(dt_entry_t)`-byte records starting at `pos`; any short record makes
`from_buffer_copy` raise, aborting the whole comprehension with no partial
list. Returns the records and the stream position after them. -/
def readEntriesLoop (data : List Nat) : Nat → Nat → Option (List dt_entry_t × Nat)
  | pos, 0 => some ([], pos)
  | pos, n + 1 =>
    match entryFromBuffer ((data.drop pos).take dt_entry_size) with
    | none => none
    | some e =>
      match readEntriesLoop data (pos + dt_entry_size) n with
      | none => none
      | some (es, p) => some (e :: es, p)

/-- The list comprehension of line 124: resolve every entry with
`extract_dt`, aborting on the first failure. -/
def resolveAll (start : Int) (data : List Nat) : List dt_entry_t → Option (List DTEntry)
  | [] => some []
  | e :: es =>
    match extract_dt start data e with
    | none => none
    | some r =>
      match resolveAll start data es with
      | none => none
      | some rs => some (r :: rs)

/-- `read_dtb(f)` (lines 112-126): locate the magic, seek there, decode the
header, decode `dt_count` entry records, then resolve every entry with base
position `magic_pos * 2`. -/
def read_dtb (fuel : Nat) (data : List Nat) : Option (dt_head_info × List DTEntry) :=
  match find_hsdt_magic fuel data with
  | none => none
  | some magic_pos =>
    match headFromBuffer ((data.drop magic_pos).take dt_head_size) with
    | none => none
    | some header =>
      match readEntriesLoop data (magic_pos + dt_head_size) header.dt_count.toNat with
      | none => none
      | some (entries, _) =>
        match resolveAll (2 * (magic_pos : Int)) data entries with
        | none => none
        | some dts => some (header, dts)

/-! ## Concrete inputs used by counterexamples and witnesses -/

/-- A stream whose first `HSDT` occurrence lies in block 1: 2048 filler
bytes followed by the four magic bytes. -/
def exDataBlock1 : List Nat := List.replicate 2048 0 ++ HSDT_MAGIC

/-- An entry declaring a 10-byte DTB payload at offset 0 and no VRL. -/
def exEntryTrunc : dt_entry_t :=
  ⟨[65, 65, 65, 65], [0, 0, 0, 0], 10, 0, 0, 0, 0, 0⟩

/-- The resolved entry `read_image 0 [1,2,3,4] exEntryTrunc` produces. -/
def exResolvedTrunc : DTEntry :=
  ⟨[65, 65, 65, 65], 10, 0, 0, 0, false, [1, 2, 3, 4], []⟩

/-- An entry with `vrl_offset = 0` but `vrl_size = 2`. -/
def exEntryVrl0 : dt_entry_t :=
  ⟨[65, 65, 65, 65], [0, 0, 0, 0], 0, 2, 0, 0, 0, 0⟩

/-- The resolved entry `read_image 0 [9,8,7] exEntryVrl0` produces. -/
def exResolvedVrl0 : DTEntry :=
  ⟨[65, 65, 65, 65], 0, 0, 2, 0, false, [], [9, 8]⟩

/-- A minimal well-formed image: magic in block 0, version 1, one all-zero
entry record. -/
def exImage : List Nat :=
  HSDT_MAGIC ++ [1, 0, 0, 0] ++ [1, 0, 0, 0] ++ List.replicate 40 0

/-- The header `read_dtb` decodes from `exImage`. -/
def exHeader : dt_head_info := ⟨HSDT_MAGIC, 1, 1⟩

/-- The all-zero raw entry record of `exImage`. -/
def exEntry0 : dt_entry_t := ⟨[0, 0, 0, 0], [0, 0, 0, 0], 0, 0, 0, 0, 0, 0⟩

/-- The resolved entry `read_dtb` produces from `exImage`. -/
def exResolved0 : DTEntry := ⟨[0, 0, 0, 0], 0, 0, 0, 0, false, [], []⟩

/-- An uncompressed resolved entry used to exercise the `dt` property. -/
def exPlainEntry : DTEntry :=
  ⟨[65, 66, 67, 68], 2, 0, 0, 0, false, [222, 173], []⟩

/-- A resolved entry whose `board_id` starts with the invalid byte `0xFF`. -/
def exBadIdEntry : DTEntry :=
  ⟨[255, 0, 0, 0], 0, 0, 0, 0, false, [], []⟩

/-! ## Helper lemmas -/

/-- One failed iteration of the scan loop moves to the next block. -/
theorem findLoop_step (data : List Nat) (fuel k : Nat)
    (h : hasMagic (blockAt data k) = false) :
    findLoop data (fuel + 1) k = findLoop data fuel (k + 1) := by
  simp [findLoop, h]

/-- If the first `b` blocks after block `k` are magic-free and block `k + b`
contains the magic, the loop started at block `k` with enough fuel returns
`LOWEST_PAGE_SIZE * (k + b)`. -/
theorem findLoop_first_magic (data : List Nat) :
    ∀ (b fuel k : Nat), b < fuel →
    (∀ j, j < b → hasMagic (blockAt data (k + j)) = false) →
    hasMagic (blockAt data (k + b)) = true →
    findLoop data fuel k = some (LOWEST_PAGE_SIZE * (k + b)) := by
  intro b
  induction b with
  | zero =>
    intro fuel k hfuel _ hb
    match fuel, hfuel with
    | fuel + 1, _ =>
      have hb' : hasMagic (blockAt data k) = true := by simpa using hb
      simp [findLoop, hb']
  | succ b ih =>
    intro fuel k hfuel hnone hb
    match fuel, hfuel with
    | fuel + 1, hfuel =>
      have h0 : hasMagic (blockAt data k) = false := by
        simpa using hnone 0 (Nat.succ_pos b)
      rw [findLoop_step data fuel k h0]
      have := ih fuel (k + 1) (Nat.lt_of_succ_lt_succ hfuel)
        (fun j hj => by
          have := hnone (j + 1) (Nat.succ_lt_succ hj)
          simpa [Nat.add_assoc, Nat.add_comm 1 j] using this)
        (by simpa [Nat.add_assoc, Nat.add_comm 1 b] using hb)
      simpa [Nat.add_assoc, Nat.add_comm 1 b] using this

/-- A magic-free stream keeps the loop spinning for any amount of fuel. -/
theorem findLoop_none_of_no_magic (data : List Nat)
    (h : ∀ k, hasMagic (blockAt data k) = false) :
    ∀ fuel k, findLoop data fuel k = none := by
  intro fuel
  induction fuel with
  | zero => intro k; rfl
  | succ fuel ih => intro k; rw [findLoop_step data fuel k (h k)]; exact ih (k + 1)

/-- The empty buffer does not contain the magic. -/
theorem hasMagic_nil : hasMagic [] = false := by decide

/-! ## Claims -/

/-- C1 (amended): when the magic signature first appears inside block `b`
of the 2048-byte non-overlapping block scan, `find_hsdt_magic` returns the
byte position of the start of block `b` itself (`LOWEST_PAGE_SIZE * b`) —
not the start of block `b - 1`. -/
theorem find_hsdt_magic_block_start (data : List Nat) (b fuel : Nat)
    (hfuel : b < fuel)
    (hfirst : ∀ j, j < b → hasMagic (blockAt data j) = false)
    (hb : hasMagic (blockAt data b) = true) :
    find_hsdt_magic fuel data = some (LOWEST_PAGE_SIZE * b) := by
  have := findLoop_first_magic data b fuel 0 hfuel
    (fun j hj => by simpa using hfirst j hj) (by simpa using hb)
  simpa [find_hsdt_magic] using this

set_option maxRecDepth 40000 in
/-- C1 witness: on `exDataBlock1` the magic first appears in block 1 and
the locator returns `LOWEST_PAGE_SIZE * 1`. -/
theorem find_hsdt_magic_block_start_witness :
    find_hsdt_magic 2 exDataBlock1 = some (LOWEST_PAGE_SIZE * 1) :=
  find_hsdt_magic_block_start exDataBlock1 1 2 (by decide)
    (fun j hj => by
      have hj0 : j = 0 := by omega
      subst hj0
      rfl)
    (by rfl)

set_option maxRecDepth 40000 in
/-- C1 counterexample: in `exDataBlock1` the magic first appears in
block 1 (block 0 is magic-free), yet the locator returns 2048 — the start
of block 1 — and not 0, the start of block 0 that the claim predicts. -/
theorem find_hsdt_magic_not_previous_block :
    hasMagic (blockAt exDataBlock1 0) = false ∧
    hasMagic (blockAt exDataBlock1 1) = true ∧
    find_hsdt_magic 2 exDataBlock1 = some 2048 ∧ (2048 : Nat) ≠ 0 :=
  ⟨by rfl, by rfl, by rfl, by decide⟩

/-- C2: `find_hsdt_magic` never terminates on a stream with no magic in
any scanned block: for every amount of fuel the loop fails to return, i.e.
the Python `while True` loop runs forever instead of failing with
`MagicNotFound` at end of data. -/
theorem find_hsdt_magic_never_fails_gracefully (data : List Nat)
    (h : ∀ k, hasMagic (blockAt data k) = false) :
    ∀ fuel, find_hsdt_magic fuel data = none := by
  intro fuel
  exact findLoop_none_of_no_magic data h fuel 0

/-- C2 witness: applied to the empty stream with fuel 7. -/
theorem find_hsdt_magic_never_fails_gracefully_witness :
    find_hsdt_magic 7 ([] : List Nat) = none :=
  find_hsdt_magic_never_fails_gracefully []
    (fun k => by simp [blockAt, hasMagic_nil]) 7

/-- Everything `read_image` guarantees when it succeeds: both seek
positions were non-negative, the descriptor fields are copied unchanged,
and the two payloads are exactly the bytes read at `start + offset`. -/
theorem read_image_some_spec (start : Int) (data : List Nat) (e : dt_entry_t)
    (r : DTEntry) (h : read_image start data e = some r) :
    0 ≤ start + e.dtb_offset ∧ 0 ≤ start + e.vrl_offset ∧
    r.board_id = e.board_id ∧
    r.dtb_offset = e.dtb_offset ∧ r.vrl_offset = e.vrl_offset ∧
    r.dtb_size = e.dtb_size ∧ r.vrl_size = e.vrl_size ∧
    r._dt = pyRead data (start + e.dtb_offset).toNat e.dtb_size ∧
    r.vrl = pyRead data (start + e.vrl_offset).toNat e.vrl_size ∧
    r.compressed = is_compressed r._dt := by
  by_cases h1 : start + e.dtb_offset < 0
  · simp [read_image, seekRead, h1] at h
  · by_cases hs1 : e.dtb_size < -1
    · simp [read_image, seekRead, h1, hs1] at h
    · by_cases h2 : start + e.vrl_offset < 0
      · simp [read_image, seekRead, h1, hs1, h2] at h
      · by_cases hs2 : e.vrl_size < -1
        · simp [read_image, seekRead, h1, hs1, h2, hs2] at h
        · simp only [read_image, seekRead, h1, hs1, h2, hs2, if_false] at h
          cases h
          refine ⟨by omega, by omega, rfl, rfl, rfl, rfl, rfl, rfl, rfl, rfl⟩

/-- C3 (amended): for an entry whose seeks and VRL read are themselves
valid (non-negative seek positions, `vrl_size` at least `-1` so the VRL
read does not raise `ValueError`), when the stream holds fewer than
`dtb_size` bytes at the computed position, `read_image` does not fail: it
succeeds with exactly the remaining bytes, strictly fewer than the
declared size. -/
theorem read_image_truncation_no_error (data : List Nat) (start : Int)
    (e : dt_entry_t)
    (hd : 0 ≤ start + e.dtb_offset) (hv : 0 ≤ start + e.vrl_offset)
    (hvs : -1 ≤ e.vrl_size)
    (hshort : ((data.length - (start + e.dtb_offset).toNat : Nat) : Int) < e.dtb_size) :
    ∃ r, read_image start data e = some r ∧
      r._dt.length = data.length - (start + e.dtb_offset).toNat ∧
      (r._dt.length : Int) < e.dtb_size := by
  have h1 : ¬ start + e.dtb_offset < 0 := not_lt.mpr hd
  have h2 : ¬ start + e.vrl_offset < 0 := not_lt.mpr hv
  have hs1 : ¬ e.dtb_size < -1 := by omega
  have hs2 : ¬ e.vrl_size < -1 := not_lt.mpr hvs
  have hne : ¬ e.dtb_size = -1 := by omega
  have hlen : (pyRead data (start + e.dtb_offset).toNat e.dtb_size).length =
      data.length - (start + e.dtb_offset).toNat := by
    simp only [pyRead, hne, if_false, List.length_take, List.length_drop]
    omega
  have hread : read_image start data e = some
      { board_id := e.board_id, dtb_size := e.dtb_size,
        dtb_offset := e.dtb_offset, vrl_size := e.vrl_size,
        vrl_offset := e.vrl_offset,
        compressed := is_compressed (pyRead data (start + e.dtb_offset).toNat e.dtb_size),
        _dt := pyRead data (start + e.dtb_offset).toNat e.dtb_size,
        vrl := pyRead data (start + e.vrl_offset).toNat e.vrl_size } := by
    simp [read_image, seekRead, h1, hs1, h2, hs2]
  exact ⟨_, hread, hlen, by rw [show (DTEntry._dt _) = pyRead data (start + e.dtb_offset).toNat e.dtb_size from rfl, hlen]; omega⟩

/-- C3 witness: the theorem applied to a 4-byte stream and an entry that
declares a 10-byte payload at offset 0. -/
theorem read_image_truncation_no_error_witness :
    ∃ r, read_image 0 [1, 2, 3, 4] exEntryTrunc = some r ∧
      r._dt.length =
        ([1, 2, 3, 4] : List Nat).length - ((0 : Int) + exEntryTrunc.dtb_offset).toNat ∧
      (r._dt.length : Int) < exEntryTrunc.dtb_size :=
  read_image_truncation_no_error [1, 2, 3, 4] 0 exEntryTrunc
    (by decide) (by decide) (by decide) (by decide)

/-- C3 counterexample: on a 4-byte stream an entry declaring 10 bytes is
resolved successfully with the 4 available bytes — `read_image` raises no
`TruncatedPayload`-style error. -/
theorem read_image_truncated_succeeds_concretely :
    read_image 0 [1, 2, 3, 4] exEntryTrunc = some exResolvedTrunc ∧
    exResolvedTrunc._dt.length = 4 ∧ exEntryTrunc.dtb_size = 10 ∧
    ((4 : Int) < 10) :=
  ⟨rfl, rfl, rfl, by decide⟩

/-- C4 (amended): `read_image` never skips the VRL read: on success the
VRL payload is always the result of reading `vrl_size` bytes at position
`start + vrl_offset`, also when `vrl_offset = 0` (then the read happens at
the base position itself). Only the output layer (`main`, line 159) treats
`vrl_offset = 0` as absent, by not writing the `.vrl` file. -/
theorem read_image_always_reads_vrl (data : List Nat) (start : Int)
    (e : dt_entry_t) (r : DTEntry) (h : read_image start data e = some r) :
    r.vrl = pyRead data (start + e.vrl_offset).toNat e.vrl_size ∧
    (e.vrl_offset = 0 →
      r.vrl = pyRead data start.toNat e.vrl_size ∧ shouldWriteVrl r = false) := by
  obtain ⟨-, -, -, -, hvo, -, -, -, hvrl, -⟩ := read_image_some_spec start data e r h
  refine ⟨hvrl, fun h0 => ⟨by simpa [h0] using hvrl, ?_⟩⟩
  simp [shouldWriteVrl, hvo, h0]

/-- C4 witness: applied to an entry with `vrl_offset = 0`, `vrl_size = 2`
over the stream `[9, 8, 7]`: the VRL read still happens (it yields
`[9, 8]`), and only the file write is skipped. -/
theorem read_image_always_reads_vrl_witness :
    exResolvedVrl0.vrl = pyRead [9, 8, 7] (0 : Int).toNat exEntryVrl0.vrl_size ∧
    shouldWriteVrl exResolvedVrl0 = false :=
  (read_image_always_reads_vrl [9, 8, 7] 0 exEntryVrl0 exResolvedVrl0 rfl).2 rfl

/-- C4 counterexample: with `vrl_offset = 0` and `vrl_size = 2` the VRL
read is not skipped: the resolved entry's VRL payload is `[9, 8]`, not
absent/empty as the claim states. -/
theorem read_image_vrl_zero_not_skipped :
    read_image 0 [9, 8, 7] exEntryVrl0 = some exResolvedVrl0 ∧
    exEntryVrl0.vrl_offset = 0 ∧ exResolvedVrl0.vrl = [9, 8] ∧
    ([9, 8] : List Nat) ≠ [] :=
  ⟨rfl, rfl, rfl, by decide⟩

/-- C5: the compression classifier returns `true` exactly when the payload
starts with the two gzip magic bytes `1F 8B` (31, 139), and any payload of
length at most 1 is classified as not compressed. -/
theorem is_compressed_iff_gzip_magic (b : List Nat) :
    (is_compressed b = true ↔ ∃ t, b = 31 :: 139 :: t) ∧
    (b.length ≤ 1 → is_compressed b = false) := by
  have key : is_compressed b = true ↔ b.take 2 = GZIP_MAGIC := by
    simp [is_compressed]
  constructor
  · rw [key]
    constructor
    · intro h
      match b with
      | [] => simp [GZIP_MAGIC] at h
      | [x] => simp [GZIP_MAGIC] at h
      | x :: y :: t =>
        simp [GZIP_MAGIC, List.take] at h
        exact ⟨t, by simp [h.1, h.2]⟩
    · rintro ⟨t, rfl⟩
      rfl
  · intro hlen
    match b with
    | [] => rfl
    | [x] =>
      rw [Bool.eq_false_iff]
      intro hc
      have htk := key.mp hc
      simp [GZIP_MAGIC] at htk
    | x :: y :: t => simp at hlen

/-- C5 witness: a single-byte payload (even the first gzip byte alone) is
classified as not compressed. -/
theorem is_compressed_iff_gzip_magic_witness :
    is_compressed [31] = false :=
  (is_compressed_iff_gzip_magic [31]).2 (by decide)

/-- Every entry resolved by `resolveAll start` with a successful outcome
carries payloads read at `start + offset` for its own recorded offsets. -/
theorem resolveAll_mem_spec (start : Int) (data : List Nat) :
    ∀ (es : List dt_entry_t) (rs : List DTEntry),
      resolveAll start data es = some rs →
      ∀ r ∈ rs, 0 ≤ start + r.dtb_offset ∧ 0 ≤ start + r.vrl_offset ∧
        r._dt = pyRead data (start + r.dtb_offset).toNat r.dtb_size ∧
        r.vrl = pyRead data (start + r.vrl_offset).toNat r.vrl_size := by
  intro es
  induction es with
  | nil =>
    intro rs h r hr
    simp [resolveAll] at h
    subst h
    simp at hr
  | cons e es ih =>
    intro rs h r hr
    cases h1 : extract_dt start data e with
    | none => rw [resolveAll, h1] at h; simp at h
    | some r0 =>
      rw [resolveAll, h1] at h
      cases h2 : resolveAll start data es with
      | none => rw [h2] at h; simp at h
      | some rs0 =>
        rw [h2] at h
        simp at h
        subst h
        rcases List.mem_cons.mp hr with hr0 | hmem
        · obtain ⟨hd0, hv0, -, hdo, hvo, hds, hvs, hdt, hvrl, -⟩ :=
            read_image_some_spec start data e r0 h1
          rw [hr0, hdo, hvo, hds, hvs]
          exact ⟨hd0, hv0, hdt, hvrl⟩
        · exact ih rs0 h2 r hmem

/-- `resolveAll` resolves exactly one entry per descriptor. -/
theorem resolveAll_length (start : Int) (data : List Nat) :
    ∀ es rs, resolveAll start data es = some rs → rs.length = es.length := by
  intro es
  induction es with
  | nil => intro rs h; simp [resolveAll] at h; subst h; rfl
  | cons e es ih =>
    intro rs h
    cases h1 : extract_dt start data e with
    | none => rw [resolveAll, h1] at h; simp at h
    | some r0 =>
      rw [resolveAll, h1] at h
      cases h2 : resolveAll start data es with
      | none => rw [h2] at h; simp at h
      | some rs0 =>
        rw [h2] at h
        simp at h
        subst h
        simp [ih rs0 h2]

/-- When the data runs out before `n` full records, the entry-table read
fails outright. -/
theorem readEntriesLoop_none_of_short (data : List Nat) :
    ∀ n pos, 0 < n → data.length < pos + dt_entry_size * n →
      readEntriesLoop data pos n = none := by
  intro n
  induction n with
  | zero => intro pos h; omega
  | succ n ih =>
    intro pos _ hshort
    have h40 : dt_entry_size = 40 := rfl
    by_cases hfit : data.length < pos + dt_entry_size
    · have hcond : data.length - pos < dt_entry_size := by omega
      simp [readEntriesLoop, entryFromBuffer, hcond]
    · have hrest : data.length < (pos + dt_entry_size) + dt_entry_size * n := by
        rw [Nat.mul_succ] at hshort
        omega
      have hn : 0 < n := by
        rcases Nat.eq_zero_or_pos n with h0 | h0
        · subst h0; simp at hrest; omega
        · exact h0
      have hnext := ih (pos + dt_entry_size) hn hrest
      cases hE : entryFromBuffer ((data.drop pos).take dt_entry_size) with
      | none => simp [readEntriesLoop, hE]
      | some e0 => simp [readEntriesLoop, hE, hnext]

/-- A successful entry-table read yields exactly `n` records and leaves the
stream position exactly `dt_entry_size * n` bytes further. -/
theorem readEntriesLoop_some_spec (data : List Nat) :
    ∀ n pos es p, readEntriesLoop data pos n = some (es, p) →
      es.length = n ∧ p = pos + dt_entry_size * n := by
  intro n
  induction n with
  | zero =>
    intro pos es p h
    simp [readEntriesLoop] at h
    obtain ⟨rfl, rfl⟩ := h
    simp
  | succ n ih =>
    intro pos es p h
    cases hE : entryFromBuffer ((data.drop pos).take dt_entry_size) with
    | none => rw [readEntriesLoop, hE] at h; simp at h
    | some e0 =>
      rw [readEntriesLoop, hE] at h
      cases hL : readEntriesLoop data (pos + dt_entry_size) n with
      | none => rw [hL] at h; simp at h
      | some q =>
        obtain ⟨es0, p0⟩ := q
        rw [hL] at h
        simp at h
        obtain ⟨rfl, rfl⟩ := h
        obtain ⟨hlen, hpos⟩ := ih (pos + dt_entry_size) es0 p0 hL
        constructor
        · simp [hlen]
        · rw [hpos, Nat.mul_succ]; omega

/-- C6: whenever the parse `read_dtb` succeeds, the base position used to
resolve every entry's payloads is twice the position returned by the magic
locator: each DTB payload is the read at `2 * p + dtb_offset` and each VRL
payload the read at `2 * p + vrl_offset`. -/
theorem read_dtb_doubles_magic_pos (fuel : Nat) (data : List Nat)
    (h : dt_head_info) (dts : List DTEntry)
    (hp : read_dtb fuel data = some (h, dts)) :
    ∃ p, find_hsdt_magic fuel data = some p ∧
      ∀ r ∈ dts, 0 ≤ 2 * (p : Int) + r.dtb_offset ∧
        0 ≤ 2 * (p : Int) + r.vrl_offset ∧
        r._dt = pyRead data (2 * (p : Int) + r.dtb_offset).toNat r.dtb_size ∧
        r.vrl = pyRead data (2 * (p : Int) + r.vrl_offset).toNat r.vrl_size := by
  cases hf : find_hsdt_magic fuel data with
  | none => simp only [read_dtb, hf] at hp; simp at hp
  | some p =>
    simp only [read_dtb, hf] at hp
    cases hh : headFromBuffer ((data.drop p).take dt_head_size) with
    | none => simp only [hh] at hp; simp at hp
    | some header =>
      simp only [hh] at hp
      cases hE : readEntriesLoop data (p + dt_head_size) header.dt_count.toNat with
      | none => simp only [hE] at hp; simp at hp
      | some ep =>
        obtain ⟨entries, pend⟩ := ep
        simp only [hE] at hp
        cases hR : resolveAll (2 * (p : Int)) data entries with
        | none => simp only [hR] at hp; simp at hp
        | some dts0 =>
          simp only [hR] at hp
          simp at hp
          obtain ⟨rfl, rfl⟩ := hp
          exact ⟨p, rfl, resolveAll_mem_spec (2 * (p : Int)) data entries dts0 hR⟩

/-- C6 witness: the theorem applied to `exImage` (magic in block 0, one
all-zero entry), where `read_dtb` succeeds. -/
theorem read_dtb_doubles_magic_pos_witness :
    ∃ p, find_hsdt_magic 2 exImage = some p ∧
      ∀ r ∈ [exResolved0], 0 ≤ 2 * (p : Int) + r.dtb_offset ∧
        0 ≤ 2 * (p : Int) + r.vrl_offset ∧
        r._dt = pyRead exImage (2 * (p : Int) + r.dtb_offset).toNat r.dtb_size ∧
        r.vrl = pyRead exImage (2 * (p : Int) + r.vrl_offset).toNat r.vrl_size :=
  read_dtb_doubles_magic_pos 2 exImage exHeader [exResolved0] (by rfl)

/-- C7: if the stream ends before `n` full `dt_entry_size`-byte records,
the entry-table read fails with no partial list; moreover any successful
table read has exactly `n` records, and any successful full parse returns
exactly `dt_count` resolved entries — never fewer. -/
theorem entry_table_no_partial_list (data : List Nat) :
    (∀ pos n, 0 < n → data.length < pos + dt_entry_size * n →
      readEntriesLoop data pos n = none) ∧
    (∀ pos n es p, readEntriesLoop data pos n = some (es, p) → es.length = n) ∧
    (∀ fuel h dts, read_dtb fuel data = some (h, dts) →
      dts.length = h.dt_count.toNat) := by
  refine ⟨fun pos n hn hs => readEntriesLoop_none_of_short data n pos hn hs,
    fun pos n es p hl => (readEntriesLoop_some_spec data n pos es p hl).1, ?_⟩
  intro fuel h dts hp
  cases hf : find_hsdt_magic fuel data with
  | none => simp only [read_dtb, hf] at hp; simp at hp
  | some p =>
    simp only [read_dtb, hf] at hp
    cases hh : headFromBuffer ((data.drop p).take dt_head_size) with
    | none => simp only [hh] at hp; simp at hp
    | some header =>
      simp only [hh] at hp
      cases hE : readEntriesLoop data (p + dt_head_size) header.dt_count.toNat with
      | none => simp only [hE] at hp; simp at hp
      | some ep =>
        obtain ⟨entries, pend⟩ := ep
        simp only [hE] at hp
        cases hR : resolveAll (2 * (p : Int)) data entries with
        | none => simp only [hR] at hp; simp at hp
        | some dts0 =>
          simp only [hR] at hp
          simp at hp
          obtain ⟨rfl, rfl⟩ := hp
          rw [resolveAll_length (2 * (p : Int)) data entries dts0 hR]
          exact (readEntriesLoop_some_spec data header.dt_count.toNat
            (p + dt_head_size) entries pend hE).1

/-- C7 witness: a 3-byte stream cannot hold one 40-byte record, so the
table read fails. -/
theorem entry_table_no_partial_list_witness :
    readEntriesLoop [1, 2, 3] 0 1 = none :=
  (entry_table_no_partial_list [1, 2, 3]).1 0 1 (by decide) (by decide)

/-- C8: the `dt` property is a pure derived read: accessing it leaves the
entry unchanged, two successive accesses return identical bytes, and when
`compressed = false` the decompressor is not invoked and the raw bytes are
returned unchanged — for any decompressor `gz`. -/
theorem dt_property_pure (gz : List Nat → List Nat) (e : DTEntry) :
    (dt_access gz e).2 = e ∧
    (dt_access gz ((dt_access gz e).2)).1 = (dt_access gz e).1 ∧
    (e.compressed = false → dt_traced gz e = (e._dt, false)) := by
  by_cases h : e.compressed <;> simp [dt_access, dt_traced, h]

/-- C8 witness: on an uncompressed entry the access returns the raw bytes
and reports that no decompression happened. -/
theorem dt_property_pure_witness :
    dt_traced id exPlainEntry = (exPlainEntry._dt, false) :=
  (dt_property_pure id exPlainEntry).2.2 rfl

/-- C9: the `dt_entry_t` layout is exactly 40 bytes with fields at offsets
0, 4, 8, 12, 16, 20, 24, 32 (no alignment padding), the header is 12
bytes, and a successful entry-table read consumes exactly
`dt_entry_size * n` bytes from its start position. -/
theorem dt_entry_layout_40_bytes :
    layoutSize dt_entry_fields = 40 ∧
    layoutOffsets dt_entry_fields = [0, 4, 8, 12, 16, 20, 24, 32] ∧
    layoutSize dt_head_fields = 12 ∧
    (∀ data pos n es p, readEntriesLoop data pos n = some (es, p) →
      p = pos + dt_entry_size * n) :=
  ⟨by decide, by decide, by decide,
    fun data pos n es p hl => (readEntriesLoop_some_spec data n pos es p hl).2⟩

/-- C9 witness: reading the single entry record of `exImage` right after
the 12-byte header ends at position 52 = 12 + 40. -/
theorem dt_entry_layout_40_bytes_witness :
    (52 : Nat) = 12 + dt_entry_size * 1 :=
  dt_entry_layout_40_bytes.2.2.2 exImage 12 1 [exEntry0] 52 (by rfl)

/-- C10: the manifest record of an entry is defined exactly when its
`board_id` bytes are valid (strict) UTF-8: invalid bytes make `as_dict`
raise (`none`), valid bytes yield the record with all fields copied. -/
theorem as_dict_requires_utf8 (e : DTEntry) :
    (validUtf8 e.board_id = false → as_dict e = none) ∧
    (validUtf8 e.board_id = true →
      as_dict e = some ⟨e.board_id, e.dtb_size, e.dtb_offset, e.vrl_size,
        e.vrl_offset, e.compressed⟩) := by
  constructor <;> intro h <;> simp [as_dict, h]

/-- C10 witness: a `board_id` starting with `0xFF` is not UTF-8, so
building its manifest record fails. -/
theorem as_dict_requires_utf8_witness :
    as_dict exBadIdEntry = none :=
  (as_dict_requires_utf8 exBadIdEntry).1 (by decide)

end DTS
